import Mathlib

/-!
Verification of the HealthFlowMS micro-service suite against its
natural-language specification.  Each Python service function named in the
claims is embedded as an executable Lean definition (risk scores and rates as
rationals, database tables as lists, fallible code as `Option`), and the
claimed properties are proved about those definitions.
-/

namespace HealthFlow

/-! ### model-risque service — configuration defaults (`app/config.py`) -/

/-- Default of `Settings.risk_threshold_high` (0.7). -/
def riskThresholdHigh : ℚ := 7/10

/-- Default of `Settings.risk_threshold_medium` (0.4). -/
def riskThresholdMedium : ℚ := 2/5

/-! ### model-risque service — `ModelService` pure helpers (`app/model_service.py`) -/

/-- Embedding of `ModelService.get_risk_level`: `HIGH` if the score is at
least the high threshold, else `MEDIUM` if at least the medium threshold,
else `LOW`.  The thresholds are passed explicitly because they come from
configuration. -/
def getRiskLevel (high medium score : ℚ) : String :=
  if high ≤ score then "HIGH"
  else if medium ≤ score then "MEDIUM"
  else "LOW"

/-- Spec-side measure making the three risk labels comparable
(LOW < MEDIUM < HIGH). -/
def levelRank : String → ℕ
  | "HIGH" => 2
  | "MEDIUM" => 1
  | _ => 0

/-- Embedding of `ModelService.calculate_confidence_interval`:
`margin = 0.1 * (1 - abs(score - 0.5) * 2)`,
interval `[max(0, score - margin), min(1, score + margin)]`. -/
def calculateConfidenceInterval (riskScore : ℚ) : ℚ × ℚ :=
  let margin := 1/10 * (1 - |riskScore - 1/2| * 2)
  (max 0 (riskScore - margin), min 1 (riskScore + margin))

/-- Width of the confidence interval returned by
`calculate_confidence_interval`. -/
def ciWidth (riskScore : ℚ) : ℚ :=
  (calculateConfidenceInterval riskScore).2 - (calculateConfidenceInterval riskScore).1

/-! ### audit-fairness service — `FairnessService` (`app/fairness_service.py`) -/

/-- A row of the dataframe produced by
`FairnessService.get_predictions_with_demographics`: one risk prediction
joined with the de-identified patient's demographics.  Pandas NaN-able
columns are embedded as `Option`. -/
structure PredRow where
  riskScore : ℚ
  riskLevel : String
  actualReadmission : Option Bool
  ageGroup : Option String
  gender : Option String
deriving DecidableEq

/-- First-occurrence deduplication, mirroring how `pandas` `.unique()` and
`groupby` enumerate the distinct values of a column. -/
def dedupAux (seen : List String) : List String → List String
  | [] => []
  | x :: xs => if seen.contains x then dedupAux seen xs else x :: dedupAux (x :: seen) xs

/-- Distinct values of a column, first occurrence first. -/
def dedupFirst (l : List String) : List String := dedupAux [] l

/-- Minimum of a list of rationals (`Series.min()`); 0 on the empty list,
which the call sites never pass. -/
def listMin : List ℚ → ℚ
  | [] => 0
  | x :: xs => xs.foldl min x

/-- Maximum of a list of rationals (`Series.max()`); 0 on the empty list,
which the call sites never pass. -/
def listMax : List ℚ → ℚ
  | [] => 0
  | x :: xs => xs.foldl max x

/-- The distinct non-null values of a protected-attribute column
(`df[attr].dropna().unique()` / the groups of `df.groupby(attr)`). -/
def groupsOf (df : List PredRow) (attr : PredRow → Option String) : List String :=
  dedupFirst (df.filterMap attr)

/-- The rows belonging to one group of a protected attribute. -/
def groupRows (df : List PredRow) (attr : PredRow → Option String) (g : String) :
    List PredRow :=
  df.filter (fun r => attr r == some g)

/-- `(rows["risk_level"] == "HIGH").mean()`: the fraction of rows predicted
HIGH risk. -/
def highRiskRate (rows : List PredRow) : ℚ :=
  ((rows.filter (fun r => r.riskLevel == "HIGH")).length : ℚ) / (rows.length : ℚ)

/-- The per-group HIGH-risk rates of one protected attribute
(`df.groupby(attr)["risk_level"].apply(lambda x: (x == "HIGH").mean())`). -/
def ratesOf (df : List PredRow) (attr : PredRow → Option String) : List ℚ :=
  (groupsOf df attr).map (fun g => highRiskRate (groupRows df attr g))

/-- Embedding of `FairnessService.calculate_demographic_parity`.  The
`df.empty or attr not in df.columns` early return of the Python code is
subsumed by the `< 2 groups` branch (an empty frame has no groups), and the
columns always exist in this embedding. -/
def calcDemographicParity (df : List PredRow) (attr : PredRow → Option String) : ℚ :=
  let rates := ratesOf df attr
  if rates.length < 2 then 1
  else if listMax rates = 0 then 1
  else listMin rates / listMax rates

/-- The snapshot's overall parity figure set by
`FairnessService.run_fairness_analysis` (lines 290-292): the minimum of the
per-attribute ratios for `gender` and `age_group`. -/
def overallDemographicParity (df : List PredRow) : ℚ :=
  min (calcDemographicParity df PredRow.gender) (calcDemographicParity df PredRow.ageGroup)

/-- `df[df["actual_readmission"].notna()]`: the predictions with a recorded
outcome. -/
def labeledRows (df : List PredRow) : List PredRow :=
  df.filter (fun r => r.actualReadmission.isSome)

/-- The per-group true-positive rates collected by
`FairnessService.calculate_equalized_odds`: for each group with at least one
actual-positive row, the fraction of those rows predicted HIGH. -/
def tprList (df : List PredRow) (attr : PredRow → Option String) : List ℚ :=
  (groupsOf df attr).filterMap (fun g =>
    let pos := (groupRows df attr g).filter (fun r => r.actualReadmission == some true)
    if pos.length = 0 then none else some (highRiskRate pos))

/-- The per-group false-positive rates collected by
`FairnessService.calculate_equalized_odds`: for each group with at least one
actual-negative row, the fraction of those rows predicted HIGH. -/
def fprList (df : List PredRow) (attr : PredRow → Option String) : List ℚ :=
  (groupsOf df attr).filterMap (fun g =>
    let neg := (groupRows df attr g).filter (fun r => r.actualReadmission == some false)
    if neg.length = 0 then none else some (highRiskRate neg))

/-- Embedding of `FairnessService.calculate_equalized_odds`. -/
def calcEqualizedOdds (df : List PredRow) (attr : PredRow → Option String) : ℚ :=
  let dfo := labeledRows df
  if dfo.length < 10 then 1
  else
    let tprs := tprList dfo attr
    let fprs := fprList dfo attr
    if tprs.length < 2 ∨ fprs.length < 2 then 1
    else (listMin tprs / max (listMax tprs) (1/1000) +
          listMin fprs / max (listMax fprs) (1/1000)) / 2
/-- Helper building one dataframe row for the end-to-end scenarios. -/
def mkPredRow (g lvl : String) (outcome : Option Bool) : PredRow :=
  { riskScore := 1/2, riskLevel := lvl, actualReadmission := outcome,
    ageGroup := none, gender := some g }

/-- End-to-end scenario 2: two gender groups with HIGH-risk rates
0.2 (1 of 5) and 0.8 (4 of 5). -/
def parityExampleDf : List PredRow :=
  [mkPredRow "F" "HIGH" none, mkPredRow "F" "LOW" none, mkPredRow "F" "LOW" none,
   mkPredRow "F" "LOW" none, mkPredRow "F" "LOW" none,
   mkPredRow "M" "HIGH" none, mkPredRow "M" "HIGH" none, mkPredRow "M" "HIGH" none,
   mkPredRow "M" "HIGH" none, mkPredRow "M" "LOW" none]

/-- Twelve labeled predictions in two gender groups: group A has
TPR 2/3 and FPR 1/3, group B has TPR 1 and FPR 0. -/
def oddsExampleDf : List PredRow :=
  [mkPredRow "A" "HIGH" (some true), mkPredRow "A" "HIGH" (some true),
   mkPredRow "A" "LOW" (some true),
   mkPredRow "A" "HIGH" (some false), mkPredRow "A" "LOW" (some false),
   mkPredRow "A" "LOW" (some false),
   mkPredRow "B" "HIGH" (some true), mkPredRow "B" "HIGH" (some true),
   mkPredRow "B" "HIGH" (some true),
   mkPredRow "B" "LOW" (some false), mkPredRow "B" "LOW" (some false),
   mkPredRow "B" "LOW" (some false)]

/-! ### deid service — `DeIdentificationService` (`app/deid_service.py`) -/

/-- A calendar date (`datetime` restricted to its date part). -/
structure SimpleDate where
  year : ℤ
  month : ℕ
  day : ℕ
deriving DecidableEq

/-- Module constant `FIELDS_TO_REMOVE`: direct identifiers dropped wholesale. -/
def FIELDS_TO_REMOVE : List String :=
  ["name", "telecom", "address", "photo", "contact",
   "identifier", "managingOrganization", "generalPractitioner",
   "link", "text"]

/-- Default of `Settings.age_group_bins` (`app/config.py` line 21). -/
def defaultAgeGroupBins : List ℤ := [0, 18, 30, 45, 60, 75, 90, 120]

/-- Age computation of `calculate_age_group`:
`today.year - birth.year - ((today.month, today.day) < (birth.month, birth.day))`,
with the Python lexicographic tuple comparison spelled out. -/
def computeAge (today birth : SimpleDate) : ℤ :=
  today.year - birth.year -
    (if today.month < birth.month ∨
        (today.month = birth.month ∧ today.day < birth.day) then 1 else 0)

/-- The bin-scanning loop of `calculate_age_group`: for consecutive edges
`bins[i] <= age < bins[i+1]` return `"{bins[i]}-{bins[i+1]}"`; when no bin
matches, the function returns the literal string `"90+"`. -/
def ageGroupFromAge (age : ℤ) : List ℤ → String
  | lo :: hi :: rest =>
      if lo ≤ age ∧ age < hi then toString lo ++ "-" ++ toString hi
      else ageGroupFromAge age (hi :: rest)
  | _ => "90+"

/-- Embedding of `DeIdentificationService.calculate_age_group`: `"unknown"`
for a missing birth date, otherwise the bucket of the computed age. -/
def calculateAgeGroup (bins : List ℤ) (today : SimpleDate) :
    Option SimpleDate → String
  | none => "unknown"
  | some b => ageGroupFromAge (computeAge today b) bins

/-- A row of the `fhir_patients` table.  FHIR JSON resource values are
abstracted to strings keyed by field name; only the keys matter to
de-identification bookkeeping. -/
structure FhirPatient where
  fhirId : String
  resourceData : List (String × String)
  birthDate : Option SimpleDate
  gender : Option String
deriving DecidableEq

/-- A row of the `deid_patients` table (a Pseudonymous Identity). -/
structure DeidPatient where
  originalFhirId : String
  pseudoId : String
  deidData : List (String × String)
  ageGroup : String
  gender : Option String
deriving DecidableEq

/-- A row of the `deid_audit_log` table. -/
structure DeidAuditLog where
  operation : String
  entityType : String
  originalId : String
  pseudoId : String
  removedFields : List String
  modifiedFields : List String
deriving DecidableEq

/-- The database state seen by the deid service, plus the current date and
the pseudo-id generator.  `pseudoIdOf` abstracts
`generate_pseudo_id` (a salted SHA-256 digest, pure in the original id); the
claims proved here do not depend on the digest itself. -/
structure DeidState where
  deidPatients : List DeidPatient
  auditLogs : List DeidAuditLog
  fhirPatients : List FhirPatient
  today : SimpleDate
  pseudoIdOf : String → String

/-- Python dict assignment `d[k] = v` on an association list: overwrite in
place when the key exists, append otherwise. -/
def setKey (l : List (String × String)) (k v : String) : List (String × String) :=
  if (l.map Prod.fst).contains k then
    l.map (fun kv => if kv.1 == k then (k, v) else kv)
  else l ++ [(k, v)]

/-- Embedding of `DeIdentificationService.deidentify_patient`.  Returns the
triple `(deid_patient, removed_fields, modified_fields)` and the new database
state.  The `meta` JSON object written by the Python code is abstracted to a
fixed string value; its contents play no role in any claim. -/
def deidentifyPatient (s : DeidState) (patientFhirId : String) :
    (Option DeidPatient × List String × List String) × DeidState :=
  match s.deidPatients.find? (fun d => d.originalFhirId == patientFhirId) with
  | some existing => ((some existing, [], []), s)
  | none =>
    match s.fhirPatients.find? (fun f => f.fhirId == patientFhirId) with
    | none => ((none, [], []), s)
    | some fhirPatient =>
      let pseudoId := s.pseudoIdOf patientFhirId
      let resourceData := fhirPatient.resourceData
      let removedFields :=
        (resourceData.map Prod.fst).filter (fun k => FIELDS_TO_REMOVE.contains k)
      let deidData0 := resourceData.filter (fun kv => !(FIELDS_TO_REMOVE.contains kv.1))
      let ageGroup :=
        match fhirPatient.birthDate with
        | some _ => calculateAgeGroup defaultAgeGroupBins s.today fhirPatient.birthDate
        | none => "unknown"
      let step :=
        if (deidData0.map Prod.fst).contains "birthDate" then
          match fhirPatient.birthDate with
          | some b =>
            (setKey deidData0 "birthDate"
              (if 89 < s.today.year - b.year then "1900-01-01"
               else toString b.year ++ "-01-01"),
             ["birthDate"])
          | none => (deidData0, ([] : List String))
        else (deidData0, [])
      let modifiedFields := step.2 ++ ["id"]
      let deidData2 := setKey (setKey step.1 "id" pseudoId) "meta" "deidentified:safe_harbor"
      let newPatient : DeidPatient :=
        { originalFhirId := patientFhirId, pseudoId := pseudoId,
          deidData := deidData2, ageGroup := ageGroup, gender := fhirPatient.gender }
      let newLog : DeidAuditLog :=
        { operation := "deidentify", entityType := "Patient",
          originalId := patientFhirId, pseudoId := pseudoId,
          removedFields := removedFields, modifiedFields := modifiedFields }
      ((some newPatient, removedFields, modifiedFields),
       { s with deidPatients := s.deidPatients ++ [newPatient],
                auditLogs := s.auditLogs ++ [newLog] })

/-- Concrete FHIR patient used to exercise the de-identification flow. -/
def exFhirPatient : FhirPatient :=
  { fhirId := "patient-1",
    resourceData := [("id", "patient-1"), ("name", "John Doe"),
                     ("birthDate", "1990-05-20")],
    birthDate := some ⟨1990, 5, 20⟩,
    gender := some "male" }

/-- Concrete starting database state: one FHIR patient, nothing
de-identified yet. -/
def exDeidState0 : DeidState :=
  { deidPatients := [], auditLogs := [], fhirPatients := [exFhirPatient],
    today := ⟨2026, 10, 12⟩,
    pseudoIdOf := fun _ => "DEID-0123456789ABCDEF" }

/-- The Pseudonymous Identity the first de-identification call creates for
`exDeidState0`. -/
def exDeidPatient1 : DeidPatient :=
  { originalFhirId := "patient-1",
    pseudoId := "DEID-0123456789ABCDEF",
    deidData := [("id", "DEID-0123456789ABCDEF"), ("birthDate", "1990-01-01"),
                 ("meta", "deidentified:safe_harbor")],
    ageGroup := "30-45",
    gender := some "male" }

/-! ### featurizer service — `NLPService` negation detection
(`app/nlp_service.py`).  Texts are embedded as lists of characters with
Python string indices as list positions. -/

/-- ASCII whitespace recognised by the regex class `\s` (the clinical texts
involved are ASCII). -/
def isPySpace (c : Char) : Bool :=
  c = ' ' || c = '\t' || c = '\n' || c = '\r' || c = '\x0b' || c = '\x0c'

/-- Strip a literal off the front of a character list, or fail. -/
def stripLit : List Char → List Char → Option (List Char)
  | [], cs => some cs
  | l :: ls, c :: cs => if c = l then stripLit ls cs else none
  | _ :: _, [] => none

/-- Consume `\s+`: at least one whitespace character, then greedily all
following whitespace.  Every negation pattern continues with a
non-whitespace character (or nothing), so maximal munch is equivalent to
regex backtracking here. -/
def ws1 : List Char → Option (List Char)
  | c :: rest => if isPySpace c then some (rest.dropWhile isPySpace) else none
  | [] => none

/-- Match a literal followed by `\s+`. -/
def litWs (lit : List Char) (cs : List Char) : Option (List Char) :=
  (stripLit lit cs).bind ws1

/-- Does one of the five `NEGATION_PATTERNS` (`no\s+`, `denies?\s+`,
`without\s+`, `negative\s+for\s+`, `ruled\s+out\s+`) match at the head of
the list?  For `denies?\s+`: when an `s` follows `denie` the regex consumes
it and then requires whitespace; backtracking to the s-less branch would
have to read whitespace at the `s` itself, which fails, so no alternative
arises. -/
def matchNegAt (cs : List Char) : Bool :=
  (litWs "no".toList cs).isSome ||
  (match stripLit "denie".toList cs with
   | some ('s' :: r2) => (ws1 r2).isSome
   | some r => (ws1 r).isSome
   | none => false) ||
  (litWs "without".toList cs).isSome ||
  ((litWs "negative".toList cs).bind (fun r => litWs "for".toList r)).isSome ||
  ((litWs "ruled".toList cs).bind (fun r => litWs "out".toList r)).isSome

/-- `re.search` over the whole context: try every start position
(`List.tails` includes the empty suffix, where no pattern can match). -/
def searchNeg (cs : List Char) : Bool := cs.tails.any matchNegAt

/-- The lower-cased lookback window `text[max(0, pos-50):pos].lower()` of
`NLPService._check_negation`; natural-number subtraction truncates at zero
exactly like `max(0, pos-50)`. -/
def lowerWindow (text : List Char) (pos : ℕ) : List Char :=
  ((text.drop (pos - 50)).take (pos - (pos - 50))).map Char.toLower

/-- Embedding of `NLPService._check_negation`; `extract_entities` stores
exactly this value as the `negated` flag of a symptom entity whose match
starts at `pos`. -/
def checkNegation (text : List Char) (pos : ℕ) : Bool :=
  searchNeg (lowerWindow text pos)

/-- End-to-end scenario 5 input text. -/
def scenarioText : List Char := "Patient denies chest pain, reports fever".toList

/-! ### model-risque service — predictions table
(`app/model_service.py`, `app/models.py`) -/

/-- A row of the `risk_predictions` table.  Timestamps and dates are
embedded as integers (ordering is all the code uses). -/
structure RiskPrediction where
  pseudoPatientId : String
  encounterId : Option String
  modelId : Option String
  riskScore : ℚ
  riskLevel : String
  confidenceLower : ℚ
  confidenceUpper : ℚ
  dischargeDate : Option ℤ
  predictionTimestamp : ℤ
  actualReadmission : Option Bool
  actualReadmissionDate : Option ℤ
  outcomeRecordedAt : Option ℤ
deriving DecidableEq

/-- The single mutation performed by `ModelService.update_outcome`: set the
outcome boolean, the optional outcome date and the recorded-at timestamp. -/
def withOutcome (p : RiskPrediction) (actual : Bool) (rdate : Option ℤ)
    (now : ℤ) : RiskPrediction :=
  { p with actualReadmission := some actual, actualReadmissionDate := rdate,
           outcomeRecordedAt := some now }

/-- Indices of the predictions belonging to one patient
(`filter(RiskPrediction.pseudo_patient_id == pid)`). -/
def matchIdxs (preds : List RiskPrediction) (pid : String) : List ℕ :=
  (List.range preds.length).filter (fun i =>
    match preds.get? i with
    | some p => p.pseudoPatientId == pid
    | none => false)

/-- Keep the later of two prediction indices
(`order_by(prediction_timestamp.desc()).first()`); on equal timestamps the
SQL result order is unspecified and the earlier row is kept. -/
def betterIdx (preds : List RiskPrediction) (i j : ℕ) : ℕ :=
  match preds.get? i, preds.get? j with
  | some p, some q => if p.predictionTimestamp < q.predictionTimestamp then j else i
  | _, _ => i

/-- Index of the latest prediction of a patient, if any. -/
def latestIdx (preds : List RiskPrediction) (pid : String) : Option ℕ :=
  match matchIdxs preds pid with
  | [] => none
  | i :: is => some (is.foldl (betterIdx preds) i)

/-- Embedding of `ModelService.update_outcome`: find the patient's latest
prediction; return `False` leaving the table unchanged when there is none,
else mutate exactly the three outcome fields of that row and return
`True`. -/
def updateOutcome (now : ℤ) (preds : List RiskPrediction) (pid : String)
    (actual : Bool) (rdate : Option ℤ) : Bool × List RiskPrediction :=
  match latestIdx preds pid with
  | none => (false, preds)
  | some i =>
    match preds.get? i with
    | none => (false, preds)  -- unreachable: latestIdx only yields valid indices
    | some p => (true, preds.set i (withOutcome p actual rdate now))

/-- The `ORDER BY risk_score DESC, prediction_timestamp DESC` comparison of
`get_high_risk_patients`: does `a` sort no later than `b`? -/
def predBefore (a b : RiskPrediction) : Bool :=
  decide (b.riskScore < a.riskScore) ||
  (decide (a.riskScore = b.riskScore) &&
   decide (b.predictionTimestamp ≤ a.predictionTimestamp))

/-- Insertion step of the stable sort realising the SQL ordering. -/
def insertByDesc (p : RiskPrediction) :
    List RiskPrediction → List RiskPrediction
  | [] => [p]
  | q :: qs => if predBefore p q then p :: q :: qs else q :: insertByDesc p qs

/-- Stable sort by descending risk score, then descending timestamp. -/
def sortByDesc : List RiskPrediction → List RiskPrediction
  | [] => []
  | p :: ps => insertByDesc p (sortByDesc ps)

/-- Embedding of `ModelService.get_high_risk_patients`.  The Python line
`threshold = threshold or settings.risk_threshold_high` replaces both `None`
and the falsy `0.0` by the configured default. -/
def getHighRiskPatients (preds : List RiskPrediction) (threshold : Option ℚ)
    (limit : ℕ) : List RiskPrediction :=
  let t := match threshold with
    | none => riskThresholdHigh
    | some t0 => if t0 = 0 then riskThresholdHigh else t0
  (sortByDesc (preds.filter (fun p => decide (t ≤ p.riskScore)))).take limit

/-! ### batch operations (`DeIdentificationService.batch_deidentify`,
`ModelService.batch_predict`, `FeatureService` batch endpoint) -/

/-- The totals dictionary every batch endpoint returns. -/
structure BatchResult (α ι : Type) where
  totalProcessed : ℕ
  successful : ℕ
  failed : ℕ
  results : List α
  errors : List (ι × String)
deriving DecidableEq

/-- One iteration of the batch loop: a per-item call either succeeds
(appended to results), reports a missing item (`Except.ok none`, appended to
errors with the endpoint's not-found reason), or raises
(`Except.error`, caught and appended to errors with the exception text). -/
def batchStep {σ ι α : Type} (f : σ → ι → Except String (Option α) × σ)
    (notFoundMsg : String) (acc : List α × List (ι × String) × σ) (item : ι) :
    List α × List (ι × String) × σ :=
  match f acc.2.2 item with
  | (Except.ok (some a), s2) => (acc.1 ++ [a], acc.2.1, s2)
  | (Except.ok none, s2) => (acc.1, acc.2.1 ++ [(item, notFoundMsg)], s2)
  | (Except.error e, s2) => (acc.1, acc.2.1 ++ [(item, e)], s2)

/-- The shared shape of `batch_deidentify` and `batch_predict`: process each
item in order, collecting results and per-item errors, and report
`total_processed`, `successful` and `failed` counts. -/
def batchRun {σ ι α : Type} (f : σ → ι → Except String (Option α) × σ)
    (notFoundMsg : String) (s : σ) (items : List ι) : BatchResult α ι × σ :=
  let acc := items.foldl (batchStep f notFoundMsg) ([], [], s)
  ({ totalProcessed := items.length, successful := acc.1.length,
     failed := acc.2.1.length, results := acc.1, errors := acc.2.1 }, acc.2.2)

/-- Per-item call of `batch_deidentify`: `deidentify_patient` never raises
in this embedding; a `None` patient means "Patient not found". -/
def deidStep (s : DeidState) (pid : String) :
    Except String (Option (DeidPatient × List String × List String)) × DeidState :=
  match deidentifyPatient s pid with
  | ((some p, rem, mod), s2) => (Except.ok (some (p, rem, mod)), s2)
  | ((none, _, _), s2) => (Except.ok none, s2)

/-- Embedding of `DeIdentificationService.batch_deidentify`. -/
def batchDeidentify (s : DeidState) (pids : List String) :
    BatchResult (DeidPatient × List String × List String) String × DeidState :=
  batchRun deidStep "Patient not found" s pids

/-- Embedding of `ModelService.batch_predict`, parameterised by the
per-item `predict` call (whose XGBoost internals are outside this
embedding); `predict` returning `None` means "Features not found". -/
def batchPredict {σ : Type}
    (predictFn : σ → String → Except String (Option RiskPrediction) × σ)
    (s : σ) (pids : List String) : BatchResult RiskPrediction String × σ :=
  batchRun predictFn "Features not found" s pids

/-- Concrete prediction: patient "pseudo-1", low risk, earlier timestamp. -/
def exPredA : RiskPrediction :=
  { pseudoPatientId := "pseudo-1", encounterId := none, modelId := none,
    riskScore := 3/10, riskLevel := "LOW", confidenceLower := 24/100,
    confidenceUpper := 36/100, dischargeDate := none, predictionTimestamp := 1,
    actualReadmission := none, actualReadmissionDate := none,
    outcomeRecordedAt := none }

/-- Concrete prediction: patient "pseudo-1", high risk, later timestamp. -/
def exPredB : RiskPrediction :=
  { pseudoPatientId := "pseudo-1", encounterId := none, modelId := none,
    riskScore := 8/10, riskLevel := "HIGH", confidenceLower := 74/100,
    confidenceUpper := 86/100, dischargeDate := none, predictionTimestamp := 5,
    actualReadmission := none, actualReadmissionDate := none,
    outcomeRecordedAt := none }

/-- Concrete two-row predictions table. -/
def exPreds : List RiskPrediction := [exPredA, exPredB]

/-! ### Theorems -/
lemma ciWidth_eq (s : ℚ) (h0 : 0 ≤ s) (h1 : s ≤ 1) :
    ciWidth s = 1/5 - 2/5 * |s - 1/2| := by
  have habs : |s - 1/2| ≤ 1/2 := by
    rw [abs_le]; constructor <;> linarith
  have hm0 : (0:ℚ) ≤ 1/10 * (1 - |s - 1/2| * 2) := by nlinarith
  unfold ciWidth calculateConfidenceInterval
  rcases abs_cases (s - 1/2) with ⟨he, hs⟩ | ⟨he, hs⟩ <;>
    simp only [he] <;>
    rw [max_eq_right (by nlinarith), min_eq_right (by nlinarith)] <;>
    ring
theorem getRiskLevel_mono (high medium s t : ℚ) (hst : s ≤ t) :
    levelRank (getRiskLevel high medium s) ≤ levelRank (getRiskLevel high medium t) := by
  unfold getRiskLevel
  split_ifs <;> first | decide | (exfalso; linarith)

/-- Claim C3: risk level is a monotonic non-decreasing step function of the
risk score under any fixed thresholds (`HIGH` iff score ≥ high threshold, then
`MEDIUM` iff score ≥ medium threshold, else `LOW`); with the configured
defaults (0.7 high, 0.4 medium), score 0.75 maps to HIGH, 0.5 to MEDIUM and
0.1 to LOW. -/
theorem risk_level_monotone_step (high medium s t : ℚ) (hst : s ≤ t) :
    levelRank (getRiskLevel high medium s) ≤ levelRank (getRiskLevel high medium t) ∧
    getRiskLevel riskThresholdHigh riskThresholdMedium (3/4) = "HIGH" ∧
    getRiskLevel riskThresholdHigh riskThresholdMedium (1/2) = "MEDIUM" ∧
    getRiskLevel riskThresholdHigh riskThresholdMedium (1/10) = "LOW" := by
  refine ⟨getRiskLevel_mono high medium s t hst, ?_, ?_, ?_⟩
  · unfold getRiskLevel
    rw [if_pos (by norm_num [riskThresholdHigh])]
  · unfold getRiskLevel
    rw [if_neg (by norm_num [riskThresholdHigh]),
      if_pos (by norm_num [riskThresholdMedium])]
  · unfold getRiskLevel
    rw [if_neg (by norm_num [riskThresholdHigh]),
      if_neg (by norm_num [riskThresholdMedium])]

/-- Witness for C3 at concrete inputs: thresholds (0.7, 0.4), scores 0.2 ≤ 0.8. -/
theorem risk_level_monotone_step_witness :
    levelRank (getRiskLevel riskThresholdHigh riskThresholdMedium (1/5)) ≤
      levelRank (getRiskLevel riskThresholdHigh riskThresholdMedium (4/5)) ∧
    getRiskLevel riskThresholdHigh riskThresholdMedium (3/4) = "HIGH" := by
  have h := risk_level_monotone_step riskThresholdHigh riskThresholdMedium
    (1/5) (4/5) (by norm_num)
  exact ⟨h.1, h.2.1⟩

/-- Claim C4: for every risk score in [0,1] the confidence interval is
`[max(0, s - m), min(1, s + m)]` with `m = 0.1 * (1 - 2*|s - 0.5|)`, and the
interval width strictly narrows as the score moves away from 0.5; in
particular the interval at 0.85 is strictly narrower than at 0.5. -/
theorem confidence_interval_narrows (s t : ℚ)
    (hs0 : 0 ≤ s) (hs1 : s ≤ 1) (ht0 : 0 ≤ t) (ht1 : t ≤ 1) :
    calculateConfidenceInterval s =
      (max 0 (s - 1/10 * (1 - 2 * |s - 1/2|)), min 1 (s + 1/10 * (1 - 2 * |s - 1/2|))) ∧
    (|s - 1/2| < |t - 1/2| → ciWidth t < ciWidth s) ∧
    ciWidth (85/100) < ciWidth (1/2) := by
  refine ⟨?_, ?_, ?_⟩
  · unfold calculateConfidenceInterval
    have : |s - 1/2| * 2 = 2 * |s - 1/2| := by ring
    rw [this]
  · intro hlt
    rw [ciWidth_eq s hs0 hs1, ciWidth_eq t ht0 ht1]
    linarith
  · rw [ciWidth_eq (85/100) (by norm_num) (by norm_num),
      ciWidth_eq (1/2) (by norm_num) (by norm_num)]
    norm_num

/-- Witness for C4 at the concrete scores 0.85 and 0.5. -/
theorem confidence_interval_narrows_witness :
    calculateConfidenceInterval (85/100) =
      (max 0 (85/100 - 1/10 * (1 - 2 * |85/100 - 1/2|)),
       min 1 (85/100 + 1/10 * (1 - 2 * |85/100 - 1/2|))) ∧
    ciWidth (85/100) < ciWidth (1/2) := by
  have h := confidence_interval_narrows (85/100) (1/2)
    (by norm_num) (by norm_num) (by norm_num) (by norm_num)
  exact ⟨h.1, h.2.2⟩

lemma foldl_min_le_init (xs : List ℚ) (a : ℚ) : xs.foldl min a ≤ a := by
  induction xs generalizing a with
  | nil => exact le_refl a
  | cons x xs ih => exact le_trans (ih (min a x)) (min_le_left a x)

lemma foldl_min_le_mem (xs : List ℚ) (a y : ℚ) (hy : y ∈ xs) : xs.foldl min a ≤ y := by
  induction xs generalizing a with
  | nil => cases hy
  | cons x xs ih =>
    rcases List.mem_cons.mp hy with rfl | hy
    · exact le_trans (foldl_min_le_init xs (min a y)) (min_le_right a y)
    · exact ih (min a x) hy

lemma foldl_min_cases (xs : List ℚ) (a : ℚ) : xs.foldl min a = a ∨ xs.foldl min a ∈ xs := by
  induction xs generalizing a with
  | nil => exact Or.inl rfl
  | cons x xs ih =>
    rcases ih (min a x) with h | h
    · rcases min_cases a x with ⟨he, _⟩ | ⟨he, _⟩
      · exact Or.inl (by rw [List.foldl_cons, h, he])
      · exact Or.inr (by rw [List.foldl_cons, h, he]; exact List.mem_cons_self x xs)
    · exact Or.inr (List.mem_cons_of_mem x h)

lemma init_le_foldl_max (xs : List ℚ) (a : ℚ) : a ≤ xs.foldl max a := by
  induction xs generalizing a with
  | nil => exact le_refl a
  | cons x xs ih => exact le_trans (le_max_left a x) (ih (max a x))

lemma mem_le_foldl_max (xs : List ℚ) (a y : ℚ) (hy : y ∈ xs) : y ≤ xs.foldl max a := by
  induction xs generalizing a with
  | nil => cases hy
  | cons x xs ih =>
    rcases List.mem_cons.mp hy with rfl | hy
    · exact le_trans (le_max_right a y) (init_le_foldl_max xs (max a y))
    · exact ih (max a x) hy

lemma foldl_max_cases (xs : List ℚ) (a : ℚ) : xs.foldl max a = a ∨ xs.foldl max a ∈ xs := by
  induction xs generalizing a with
  | nil => exact Or.inl rfl
  | cons x xs ih =>
    rcases ih (max a x) with h | h
    · rcases max_cases a x with ⟨he, _⟩ | ⟨he, _⟩
      · exact Or.inl (by rw [List.foldl_cons, h, he])
      · exact Or.inr (by rw [List.foldl_cons, h, he]; exact List.mem_cons_self x xs)
    · exact Or.inr (List.mem_cons_of_mem x h)

lemma listMin_mem (l : List ℚ) (hl : l ≠ []) : listMin l ∈ l := by
  cases l with
  | nil => exact absurd rfl hl
  | cons x xs =>
    show xs.foldl min x ∈ x :: xs
    rcases foldl_min_cases xs x with h | h
    · rw [h]; exact List.mem_cons_self x xs
    · exact List.mem_cons_of_mem x h

lemma listMax_mem (l : List ℚ) (hl : l ≠ []) : listMax l ∈ l := by
  cases l with
  | nil => exact absurd rfl hl
  | cons x xs =>
    show xs.foldl max x ∈ x :: xs
    rcases foldl_max_cases xs x with h | h
    · rw [h]; exact List.mem_cons_self x xs
    · exact List.mem_cons_of_mem x h

lemma listMin_le_of_mem (l : List ℚ) (y : ℚ) (hy : y ∈ l) : listMin l ≤ y := by
  cases l with
  | nil => cases hy
  | cons x xs =>
    rcases List.mem_cons.mp hy with rfl | hy
    · exact foldl_min_le_init xs y
    · exact foldl_min_le_mem xs x y hy

lemma le_listMax_of_mem (l : List ℚ) (y : ℚ) (hy : y ∈ l) : y ≤ listMax l := by
  cases l with
  | nil => cases hy
  | cons x xs =>
    rcases List.mem_cons.mp hy with rfl | hy
    · exact init_le_foldl_max xs y
    · exact mem_le_foldl_max xs x y hy

lemma highRiskRate_nonneg (rows : List PredRow) : 0 ≤ highRiskRate rows := by
  unfold highRiskRate
  positivity

lemma highRiskRate_le_one (rows : List PredRow) : highRiskRate rows ≤ 1 := by
  unfold highRiskRate
  rcases Nat.eq_zero_or_pos rows.length with h | h
  · rw [h]; norm_num
  · rw [div_le_one (by exact_mod_cast h)]
    exact_mod_cast List.length_filter_le _ rows

lemma ratesOf_nonneg (df : List PredRow) (attr : PredRow → Option String) :
    ∀ y ∈ ratesOf df attr, 0 ≤ y := by
  intro y hy
  rcases List.mem_map.mp hy with ⟨g, _, rfl⟩
  exact highRiskRate_nonneg _

/-- Claim C1: the demographic parity ratio is 1.0 with fewer than two groups
or a zero maximum rate, equals min-rate / max-rate otherwise, always lies in
[0,1]; the scenario with group rates 0.2 and 0.8 yields 0.25; and the
snapshot's overall parity figure is the minimum of the per-attribute
ratios. -/
theorem demographic_parity_spec (df : List PredRow) (attr : PredRow → Option String) :
    ((ratesOf df attr).length < 2 → calcDemographicParity df attr = 1) ∧
    (listMax (ratesOf df attr) = 0 → calcDemographicParity df attr = 1) ∧
    (2 ≤ (ratesOf df attr).length → listMax (ratesOf df attr) ≠ 0 →
      calcDemographicParity df attr = listMin (ratesOf df attr) / listMax (ratesOf df attr)) ∧
    0 ≤ calcDemographicParity df attr ∧ calcDemographicParity df attr ≤ 1 ∧
    overallDemographicParity df =
      min (calcDemographicParity df PredRow.gender) (calcDemographicParity df PredRow.ageGroup) := by
  refine ⟨?_, ?_, ?_, ?_, ?_, rfl⟩
  · intro h; unfold calcDemographicParity; rw [if_pos h]
  · intro h; unfold calcDemographicParity
    by_cases h2 : (ratesOf df attr).length < 2
    · rw [if_pos h2]
    · rw [if_neg h2, if_pos h]
  · intro h2 hm; unfold calcDemographicParity
    rw [if_neg (by omega), if_neg hm]
  · unfold calcDemographicParity
    by_cases h2 : (ratesOf df attr).length < 2
    · rw [if_pos h2]; norm_num
    · rw [if_neg h2]
      by_cases hm : listMax (ratesOf df attr) = 0
      · rw [if_pos hm]; norm_num
      · rw [if_neg hm]
        have hne : ratesOf df attr ≠ [] := by
          intro he; rw [he] at h2; simp at h2
        have h0min : 0 ≤ listMin (ratesOf df attr) :=
          ratesOf_nonneg df attr _ (listMin_mem _ hne)
        have h0max : 0 ≤ listMax (ratesOf df attr) :=
          ratesOf_nonneg df attr _ (listMax_mem _ hne)
        exact div_nonneg h0min h0max
  · unfold calcDemographicParity
    by_cases h2 : (ratesOf df attr).length < 2
    · rw [if_pos h2]
    · rw [if_neg h2]
      by_cases hm : listMax (ratesOf df attr) = 0
      · rw [if_pos hm]
      · rw [if_neg hm]
        have hne : ratesOf df attr ≠ [] := by
          intro he; rw [he] at h2; simp at h2
        have h0max : 0 ≤ listMax (ratesOf df attr) :=
          ratesOf_nonneg df attr _ (listMax_mem _ hne)
        have hpos : 0 < listMax (ratesOf df attr) := lt_of_le_of_ne h0max (Ne.symm hm)
        rw [div_le_one hpos]
        exact listMin_le_of_mem _ _ (listMax_mem _ hne)

lemma highRiskRate_eval (rows : List PredRow) (a b : ℕ)
    (ha : (rows.filter (fun r => r.riskLevel == "HIGH")).length = a)
    (hb : rows.length = b) : highRiskRate rows = (a : ℚ) / (b : ℚ) := by
  unfold highRiskRate
  rw [ha, hb]

/-- Witness for C1: an empty dataset yields parity ratio 1, and the
scenario-2 dataset with group rates 0.2 and 0.8 yields 0.25. -/
theorem demographic_parity_witness :
    calcDemographicParity ([] : List PredRow) PredRow.gender = 1 ∧
    calcDemographicParity parityExampleDf PredRow.gender = 1/4 := by
  constructor
  · exact (demographic_parity_spec [] PredRow.gender).1
      (by show (0:ℕ) < 2; norm_num)
  · have hg : groupsOf parityExampleDf PredRow.gender = ["F", "M"] := rfl
    have hstep : ratesOf parityExampleDf PredRow.gender =
        [highRiskRate (groupRows parityExampleDf PredRow.gender "F"),
         highRiskRate (groupRows parityExampleDf PredRow.gender "M")] := by
      unfold ratesOf
      rw [hg]
      rfl
    have hr : ratesOf parityExampleDf PredRow.gender = [1/5, 4/5] := by
      rw [hstep,
        highRiskRate_eval (groupRows parityExampleDf PredRow.gender "F") 1 5 rfl rfl,
        highRiskRate_eval (groupRows parityExampleDf PredRow.gender "M") 4 5 rfl rfl]
      norm_num
    have hmax : listMax (ratesOf parityExampleDf PredRow.gender) = 4/5 := by
      rw [hr]
      show max (1/5 : ℚ) (4/5) = 4/5
      exact max_eq_right (by norm_num)
    have hmin : listMin (ratesOf parityExampleDf PredRow.gender) = 1/5 := by
      rw [hr]
      show min (1/5 : ℚ) (4/5) = 1/5
      exact min_eq_left (by norm_num)
    have h := (demographic_parity_spec parityExampleDf PredRow.gender).2.2.1
      (by rw [hr]; norm_num) (by rw [hmax]; norm_num)
    rw [h, hmax, hmin]
    norm_num

lemma labeledRows_idem (df : List PredRow) :
    labeledRows (labeledRows df) = labeledRows df := by
  unfold labeledRows
  rw [List.filter_filter]
  simp

/-- Claim C2: the equalized-odds ratio is computed only over predictions with
recorded outcomes; with fewer than 10 labeled predictions it is exactly 1.0
(the embedding is a total function, so no exception is possible); with at
least 10 labeled predictions and at least two groups contributing a TPR and
an FPR it equals the average of (min TPR / max TPR) and (min FPR / max FPR)
with the denominators floored by 0.001. -/
theorem equalized_odds_spec (df : List PredRow) (attr : PredRow → Option String) :
    ((labeledRows df).length < 10 → calcEqualizedOdds df attr = 1) ∧
    calcEqualizedOdds (labeledRows df) attr = calcEqualizedOdds df attr ∧
    (10 ≤ (labeledRows df).length →
      2 ≤ (tprList (labeledRows df) attr).length →
      2 ≤ (fprList (labeledRows df) attr).length →
      calcEqualizedOdds df attr =
        (listMin (tprList (labeledRows df) attr) /
            max (listMax (tprList (labeledRows df) attr)) (1/1000) +
         listMin (fprList (labeledRows df) attr) /
            max (listMax (fprList (labeledRows df) attr)) (1/1000)) / 2) := by
  refine ⟨?_, ?_, ?_⟩
  · intro h
    simp only [calcEqualizedOdds]
    rw [if_pos h]
  · simp only [calcEqualizedOdds, labeledRows_idem]
  · intro h10 ht hf
    simp only [calcEqualizedOdds]
    rw [if_neg (by omega),
      if_neg (by simp only [not_or, not_lt]; exact ⟨ht, hf⟩)]

/-- Witness for C2: an empty dataset (zero labeled outcomes) yields exactly
1.0, and the twelve-row labeled dataset yields the averaged min/max ratio
1/3. -/
theorem equalized_odds_witness :
    calcEqualizedOdds ([] : List PredRow) PredRow.gender = 1 ∧
    calcEqualizedOdds oddsExampleDf PredRow.gender = 1/3 := by
  constructor
  · exact (equalized_odds_spec [] PredRow.gender).1 (by show (0:ℕ) < 10; norm_num)
  · have hlab : labeledRows oddsExampleDf = oddsExampleDf := rfl
    have htpr : tprList (labeledRows oddsExampleDf) PredRow.gender = [2/3, 1] := by
      rw [hlab]
      rw [show tprList oddsExampleDf PredRow.gender =
          [highRiskRate ((groupRows oddsExampleDf PredRow.gender "A").filter
              (fun r => r.actualReadmission == some true)),
           highRiskRate ((groupRows oddsExampleDf PredRow.gender "B").filter
              (fun r => r.actualReadmission == some true))] from rfl,
        highRiskRate_eval ((groupRows oddsExampleDf PredRow.gender "A").filter
          (fun r => r.actualReadmission == some true)) 2 3 rfl rfl,
        highRiskRate_eval ((groupRows oddsExampleDf PredRow.gender "B").filter
          (fun r => r.actualReadmission == some true)) 3 3 rfl rfl]
      norm_num
    have hfpr : fprList (labeledRows oddsExampleDf) PredRow.gender = [1/3, 0] := by
      rw [hlab]
      rw [show fprList oddsExampleDf PredRow.gender =
          [highRiskRate ((groupRows oddsExampleDf PredRow.gender "A").filter
              (fun r => r.actualReadmission == some false)),
           highRiskRate ((groupRows oddsExampleDf PredRow.gender "B").filter
              (fun r => r.actualReadmission == some false))] from rfl,
        highRiskRate_eval ((groupRows oddsExampleDf PredRow.gender "A").filter
          (fun r => r.actualReadmission == some false)) 1 3 rfl rfl,
        highRiskRate_eval ((groupRows oddsExampleDf PredRow.gender "B").filter
          (fun r => r.actualReadmission == some false)) 0 3 rfl rfl]
      norm_num
    have h := (equalized_odds_spec oddsExampleDf PredRow.gender).2.2
      (by rw [hlab]; show (10:ℕ) ≤ 12; norm_num)
      (by rw [htpr]; norm_num) (by rw [hfpr]; norm_num)
    rw [h, htpr, hfpr]
    show (min ((2:ℚ)/3) 1 / max (max ((2:ℚ)/3) 1) (1/1000) +
      min ((1:ℚ)/3) 0 / max (max ((1:ℚ)/3) 0) (1/1000)) / 2 = 1/3
    rw [min_eq_left (by norm_num : (2:ℚ)/3 ≤ 1),
      max_eq_right (by norm_num : (2:ℚ)/3 ≤ 1),
      max_eq_left (by norm_num : (1:ℚ)/1000 ≤ 1),
      min_eq_right (by norm_num : (0:ℚ) ≤ 1/3),
      max_eq_left (by norm_num : (0:ℚ) ≤ 1/3),
      max_eq_left (by norm_num : (1:ℚ)/1000 ≤ 1/3)]
    norm_num

lemma find?_append_none {α : Type} (p : α → Bool) (l₁ l₂ : List α)
    (h : l₁.find? p = none) : (l₁ ++ l₂).find? p = l₂.find? p := by
  rw [List.find?_append, h, Option.none_or]

lemma deidentify_found (s : DeidState) (pid : String) (ex : DeidPatient)
    (h : s.deidPatients.find? (fun d => d.originalFhirId == pid) = some ex) :
    deidentifyPatient s pid = ((some ex, [], []), s) := by
  unfold deidentifyPatient
  rw [h]

lemma deidentify_some (s : DeidState) (pid : String) (p : DeidPatient)
    (hp : (deidentifyPatient s pid).1.1 = some p) :
    (deidentifyPatient s pid).2.deidPatients.find?
      (fun d => d.originalFhirId == pid) = some p := by
  rcases hfind : s.deidPatients.find? (fun d => d.originalFhirId == pid) with _ | ex
  · rcases hfhir : s.fhirPatients.find? (fun f => f.fhirId == pid) with _ | f
    · simp only [deidentifyPatient, hfind, hfhir] at hp
      cases hp
    · simp only [deidentifyPatient, hfind, hfhir] at hp ⊢
      injection hp with hp
      rw [find?_append_none _ _ _ hfind, ← hp]
      simp [List.find?]
  · rw [deidentify_found s pid ex hfind] at hp ⊢
    injection hp with hp
    rw [← hp]
    exact hfind

/-- Claim C5: once a Pseudonymous Identity exists for an original id — in
particular right after any call that returned one — a further
de-identification call returns that identity unchanged with empty
removed-fields and modified-fields lists and leaves the database state
untouched (no duplicate row, no new audit-log entry); and whenever a row for
the original id is already present, the call returns it with empty lists and
an identical state. -/
theorem deidentify_idempotent (s : DeidState) (pid : String) (p : DeidPatient)
    (hp : (deidentifyPatient s pid).1.1 = some p) :
    deidentifyPatient (deidentifyPatient s pid).2 pid =
      ((some p, [], []), (deidentifyPatient s pid).2) ∧
    (∀ ex, s.deidPatients.find? (fun d => d.originalFhirId == pid) = some ex →
      deidentifyPatient s pid = ((some ex, [], []), s)) :=
  ⟨deidentify_found _ pid p (deidentify_some s pid p hp),
   fun ex h => deidentify_found s pid ex h⟩

/-- Witness for C5: in the concrete one-patient state, the call after the
first de-identification returns the created identity with empty lists and
does not change the state. -/
theorem deidentify_idempotent_witness :
    deidentifyPatient (deidentifyPatient exDeidState0 "patient-1").2 "patient-1" =
      ((some exDeidPatient1, [], []), (deidentifyPatient exDeidState0 "patient-1").2) :=
  (deidentify_idempotent exDeidState0 "patient-1" exDeidPatient1 rfl).1

lemma pairwise_head_le_getLast (x L : ℤ) (l : List ℤ)
    (hpw : List.Pairwise (· < ·) (x :: l)) (hL : (x :: l).getLast? = some L) :
    x ≤ L := by
  induction l generalizing x with
  | nil =>
    simp only [List.getLast?_singleton, Option.some.injEq] at hL
    exact le_of_eq hL
  | cons y ys ih =>
    rw [List.getLast?_cons_cons] at hL
    have h1 : x < y := (List.pairwise_cons.mp hpw).1 y (List.mem_cons_self y ys)
    have h2 : y ≤ L := ih y (List.pairwise_cons.mp hpw).2 hL
    linarith

lemma ageGroup_above_last (age : ℤ) (bins : List ℤ)
    (hpw : List.Pairwise (· < ·) bins) (L : ℤ) (hL : bins.getLast? = some L)
    (hage : L ≤ age) : ageGroupFromAge age bins = "90+" := by
  induction bins with
  | nil => cases hL
  | cons lo tail ih =>
    cases tail with
    | nil => rfl
    | cons hi rest =>
      rw [List.getLast?_cons_cons] at hL
      have hpw' : List.Pairwise (· < ·) (hi :: rest) := (List.pairwise_cons.mp hpw).2
      have hhi : hi ≤ L := pairwise_head_le_getLast hi L rest hpw' hL
      show ageGroupFromAge age (lo :: hi :: rest) = "90+"
      unfold ageGroupFromAge
      rw [if_neg (by
        rintro ⟨-, hlt⟩
        exact absurd hlt (not_lt.mpr (le_trans hhi hage)))]
      exact ih hpw' hL

lemma ageGroup_bucket (age : ℤ) (bins : List ℤ)
    (hpw : List.Pairwise (· < ·) bins) (i : ℕ) (h1 : i + 1 < bins.length)
    (hlow : bins.get ⟨i, Nat.lt_of_succ_lt h1⟩ ≤ age)
    (hhigh : age < bins.get ⟨i + 1, h1⟩) :
    ageGroupFromAge age bins =
      toString (bins.get ⟨i, Nat.lt_of_succ_lt h1⟩) ++ "-" ++
        toString (bins.get ⟨i + 1, h1⟩) := by
  induction bins generalizing i with
  | nil => simp at h1
  | cons lo tail ih =>
    cases tail with
    | nil => simp at h1
    | cons hi rest =>
      cases i with
      | zero =>
        have hlow' : lo ≤ age := hlow
        have hhigh' : age < hi := hhigh
        show ageGroupFromAge age (lo :: hi :: rest) = toString lo ++ "-" ++ toString hi
        unfold ageGroupFromAge
        rw [if_pos ⟨hlow', hhigh'⟩]
      | succ j =>
        have hpw' : List.Pairwise (· < ·) (hi :: rest) := (List.pairwise_cons.mp hpw).2
        have hj1 : j + 1 < (hi :: rest).length := by
          simpa using h1
        have hget1 : (lo :: hi :: rest).get ⟨j + 1, Nat.lt_of_succ_lt h1⟩ =
            (hi :: rest).get ⟨j, Nat.lt_of_succ_lt hj1⟩ := List.get_cons_succ
        have hget2 : (lo :: hi :: rest).get ⟨j + 1 + 1, h1⟩ =
            (hi :: rest).get ⟨j + 1, hj1⟩ := List.get_cons_succ
        rw [hget1] at hlow
        rw [hget2] at hhigh
        have hhead : hi ≤ (hi :: rest).get ⟨j, Nat.lt_of_succ_lt hj1⟩ := by
          cases j with
          | zero => exact le_of_eq (List.get_cons_zero).symm
          | succ k =>
            exact le_of_lt (List.pairwise_iff_get.mp hpw'
              ⟨0, by omega⟩ ⟨k + 1, Nat.lt_of_succ_lt hj1⟩
              (Fin.mk_lt_mk.mpr (by omega)))
        show ageGroupFromAge age (lo :: hi :: rest) = _
        unfold ageGroupFromAge
        rw [if_neg (by
          rintro ⟨-, hlt⟩
          exact absurd hlt (not_lt.mpr (le_trans hhead hlow)))]
        rw [hget1, hget2]
        exact ih hpw' j hj1 hlow hhigh

/-- Counterexample for C6: with the configured default bin edges
`[0, 18, 30, 45, 60, 75, 90, 120]` the last edge is 120, yet age 130 maps to
the literal `"90+"`, not to the claimed `"{last_edge}+"` bucket `"120+"`. -/
theorem age_group_counterexample :
    defaultAgeGroupBins.getLast? = some 120 ∧
    ageGroupFromAge 130 defaultAgeGroupBins = "90+" ∧
    ageGroupFromAge 130 defaultAgeGroupBins ≠ "120+" := by
  refine ⟨rfl, rfl, ?_⟩
  rw [show ageGroupFromAge 130 defaultAgeGroupBins = "90+" from rfl]
  decide

/-- Claim C6 (amended): a missing birth date maps to `"unknown"`; for every
ascending bin-edge list, an age lying in the half-open bin
`[bins[i], bins[i+1])` maps to exactly the bucket `"{bins[i]}-{bins[i+1]}"`,
and every age at or above the last bin edge maps to the hardcoded fallback
bucket `"90+"` (not to a `"{last_edge}+"` bucket). -/
theorem age_group_spec (bins : List ℤ) (age L : ℤ) (today : SimpleDate)
    (hpw : List.Pairwise (· < ·) bins) :
    calculateAgeGroup bins today none = "unknown" ∧
    (bins.getLast? = some L → L ≤ age → ageGroupFromAge age bins = "90+") ∧
    (∀ i (h1 : i + 1 < bins.length),
      bins.get ⟨i, Nat.lt_of_succ_lt h1⟩ ≤ age → age < bins.get ⟨i + 1, h1⟩ →
      ageGroupFromAge age bins =
        toString (bins.get ⟨i, Nat.lt_of_succ_lt h1⟩) ++ "-" ++
          toString (bins.get ⟨i + 1, h1⟩)) :=
  ⟨rfl,
   fun hL hage => ageGroup_above_last age bins hpw L hL hage,
   fun i h1 hlow hhigh => ageGroup_bucket age bins hpw i h1 hlow hhigh⟩

/-- Witness for C6 at the default bins: age 130 (above the last edge 120)
falls into the `"90+"` fallback, and age 36 falls into bucket `"30-45"`. -/
theorem age_group_spec_witness :
    ageGroupFromAge 130 defaultAgeGroupBins = "90+" ∧
    ageGroupFromAge 36 defaultAgeGroupBins = "30-45" := by
  have h130 := (age_group_spec defaultAgeGroupBins 130 120 ⟨0, 1, 1⟩
    (by decide)).2.1 rfl (by norm_num)
  have h36 := (age_group_spec defaultAgeGroupBins 36 120 ⟨0, 1, 1⟩
    (by decide)).2.2 2 (by norm_num [defaultAgeGroupBins])
    (by norm_num [defaultAgeGroupBins]) (by norm_num [defaultAgeGroupBins])
  exact ⟨h130, h36⟩

/-- Counterexample for C7: in scenario 5 the symptom match "fever" starts at
position 35, and the code's 50-character lookback window (which then covers
the whole preceding text, including "denies ") makes `_check_negation`
return `True` — the entity is flagged negated, not negated=false as
claimed. -/
theorem negation_scenario_counterexample :
    (scenarioText.drop 35).take 5 = "fever".toList ∧
    checkNegation scenarioText 35 = true := ⟨rfl, rfl⟩

/-- Claim C7 (amended): a symptom entity is flagged negated exactly when one
of the negation cues matches somewhere inside the lower-cased 50-character
window immediately before the match start; in scenario 5 the entity
"chest pain" (match start 15) is flagged negated, and so is "fever" (match
start 35), because "denies " lies inside fever's window too. -/
theorem negation_window_spec (text : List Char) (pos : ℕ) :
    (checkNegation text pos = true ↔
      ∃ s, List.IsSuffix s (lowerWindow text pos) ∧ matchNegAt s = true) ∧
    ((scenarioText.drop 15).take 10 = "chest pain".toList ∧
      checkNegation scenarioText 15 = true) ∧
    ((scenarioText.drop 35).take 5 = "fever".toList ∧
      checkNegation scenarioText 35 = true) := by
  refine ⟨?_, ⟨rfl, rfl⟩, ⟨rfl, rfl⟩⟩
  unfold checkNegation searchNeg
  rw [List.any_eq_true]
  constructor
  · rintro ⟨s, hs, hm⟩
    exact ⟨s, (List.mem_tails s _).mp hs, hm⟩
  · rintro ⟨s, hs, hm⟩
    exact ⟨s, (List.mem_tails s _).mpr hs, hm⟩

/-- Witness for C7 at the scenario text: both symptom match positions are
flagged negated. -/
theorem negation_window_spec_witness :
    checkNegation scenarioText 15 = true ∧ checkNegation scenarioText 35 = true :=
  ⟨(negation_window_spec scenarioText 15).2.1.2,
   (negation_window_spec scenarioText 35).2.2.2⟩

lemma foldl_batchStep_counts {σ ι α : Type} (f : σ → ι → Except String (Option α) × σ)
    (msg : String) (items : List ι) :
    ∀ (rs : List α) (es : List (ι × String)) (s : σ),
      (items.foldl (batchStep f msg) (rs, es, s)).1.length +
        (items.foldl (batchStep f msg) (rs, es, s)).2.1.length =
        rs.length + es.length + items.length := by
  induction items with
  | nil => intro rs es s; simp
  | cons i is ih =>
    intro rs es s
    rw [List.foldl_cons]
    rcases hf : f s i with ⟨r, s2⟩
    rcases r with e | o
    · have hstep : batchStep f msg (rs, es, s) i = (rs, es ++ [(i, e)], s2) := by
        simp only [batchStep, hf]
      rw [hstep, ih]
      simp
      omega
    · rcases o with _ | a
      · have hstep : batchStep f msg (rs, es, s) i = (rs, es ++ [(i, msg)], s2) := by
          simp only [batchStep, hf]
        rw [hstep, ih]
        simp
        omega
      · have hstep : batchStep f msg (rs, es, s) i = (rs ++ [a], es, s2) := by
          simp only [batchStep, hf]
        rw [hstep, ih]
        simp
        omega

lemma foldl_batchStep_shift {σ ι α : Type} (f : σ → ι → Except String (Option α) × σ)
    (msg : String) (items : List ι) :
    ∀ (rs : List α) (es : List (ι × String)) (s : σ),
      items.foldl (batchStep f msg) (rs, es, s) =
        (rs ++ (items.foldl (batchStep f msg) ([], [], s)).1,
         es ++ (items.foldl (batchStep f msg) ([], [], s)).2.1,
         (items.foldl (batchStep f msg) ([], [], s)).2.2) := by
  induction items with
  | nil => intro rs es s; simp
  | cons i is ih =>
    intro rs es s
    rw [List.foldl_cons, List.foldl_cons]
    rcases hf : f s i with ⟨r, s2⟩
    rcases r with e | o
    · have h1 : batchStep f msg (rs, es, s) i = (rs, es ++ [(i, e)], s2) := by
        simp only [batchStep, hf]
      have h2 : batchStep f msg (([] : List α), ([] : List (ι × String)), s) i =
          ([], [(i, e)], s2) := by
        simp [batchStep, hf]
      rw [h1, h2, ih rs (es ++ [(i, e)]) s2, ih [] [(i, e)] s2]
      simp
    · rcases o with _ | a
      · have h1 : batchStep f msg (rs, es, s) i = (rs, es ++ [(i, msg)], s2) := by
          simp only [batchStep, hf]
        have h2 : batchStep f msg (([] : List α), ([] : List (ι × String)), s) i =
            ([], [(i, msg)], s2) := by
          simp [batchStep, hf]
        rw [h1, h2, ih rs (es ++ [(i, msg)]) s2, ih [] [(i, msg)] s2]
        simp
      · have h1 : batchStep f msg (rs, es, s) i = (rs ++ [a], es, s2) := by
          simp only [batchStep, hf]
        have h2 : batchStep f msg (([] : List α), ([] : List (ι × String)), s) i =
            ([a], [], s2) := by
          simp [batchStep, hf]
        rw [h1, h2, ih (rs ++ [a]) es s2, ih [a] [] s2]
        simp

/-- Claim C8: every batch operation reports `total_processed = N` for an
input of size `N`, `successful + failed = N`, a results list of length
`successful` and an errors list of exactly `failed` entries (each carrying
the item and its error reason); a per-item failure never aborts the batch —
processing a concatenation processes both parts and concatenates their
error lists, threading the state — and `batch_deidentify` in particular
reports these totals. -/
theorem batch_counts {σ ι α : Type} (f : σ → ι → Except String (Option α) × σ)
    (msg : String) (s : σ) (items extra : List ι)
    (sd : DeidState) (pids : List String) :
    (batchRun f msg s items).1.totalProcessed = items.length ∧
    (batchRun f msg s items).1.successful + (batchRun f msg s items).1.failed =
      items.length ∧
    (batchRun f msg s items).1.results.length = (batchRun f msg s items).1.successful ∧
    (batchRun f msg s items).1.errors.length = (batchRun f msg s items).1.failed ∧
    (batchRun f msg s (items ++ extra)).1.errors =
      (batchRun f msg s items).1.errors ++
        (batchRun f msg (batchRun f msg s items).2 extra).1.errors ∧
    (batchDeidentify sd pids).1.totalProcessed = pids.length ∧
    (batchDeidentify sd pids).1.successful + (batchDeidentify sd pids).1.failed =
      pids.length := by
  refine ⟨rfl, ?_, rfl, rfl, ?_, rfl, ?_⟩
  · have h := foldl_batchStep_counts f msg items ([] : List α) ([] : List (ι × String)) s
    simpa using h
  · show (List.foldl (batchStep f msg) ([], [], s) (items ++ extra)).2.1 = _
    rw [List.foldl_append]
    rcases hacc : List.foldl (batchStep f msg) (([] : List α), ([] : List (ι × String)), s) items
      with ⟨rs1, es1, s1⟩
    rw [foldl_batchStep_shift f msg extra rs1 es1 s1]
    have h2 : (batchRun f msg s items).1.errors = es1 := by
      show (List.foldl (batchStep f msg) ([], [], s) items).2.1 = es1
      rw [hacc]
    have h3 : (batchRun f msg s items).2 = s1 := by
      show (List.foldl (batchStep f msg) ([], [], s) items).2.2 = s1
      rw [hacc]
    rw [h2, h3]
    rfl
  · have h := foldl_batchStep_counts deidStep "Patient not found" pids
      ([] : List (DeidPatient × List String × List String))
      ([] : List (String × String)) sd
    simpa using h

/-- Witness for C8 (though `batch_counts` carries no standalone hypothesis,
the totals are exercised on a concrete batch): de-identifying
`["patient-1", "ghost"]` from the concrete state processes 2 items with 1
success and 1 failure. -/
theorem batch_counts_witness :
    (batchDeidentify exDeidState0 ["patient-1", "ghost"]).1.totalProcessed = 2 ∧
    (batchDeidentify exDeidState0 ["patient-1", "ghost"]).1.successful +
      (batchDeidentify exDeidState0 ["patient-1", "ghost"]).1.failed = 2 ∧
    (batchDeidentify exDeidState0 ["patient-1", "ghost"]).1.errors =
      [("ghost", "Patient not found")] := by
  refine ⟨?_, ?_, rfl⟩
  · exact (batch_counts deidStep "m" exDeidState0 [] []
      exDeidState0 ["patient-1", "ghost"]).2.2.2.2.2.1
  · exact (batch_counts deidStep "m" exDeidState0 [] []
      exDeidState0 ["patient-1", "ghost"]).2.2.2.2.2.2

lemma betterIdx_cases (preds : List RiskPrediction) (a j : ℕ) :
    betterIdx preds a j = a ∨ betterIdx preds a j = j := by
  unfold betterIdx
  rcases ha : preds.get? a with _ | p
  · exact Or.inl rfl
  · rcases hj : preds.get? j with _ | q
    · exact Or.inl rfl
    · show (if p.predictionTimestamp < q.predictionTimestamp then j else a) = a ∨
        (if p.predictionTimestamp < q.predictionTimestamp then j else a) = j
      by_cases h : p.predictionTimestamp < q.predictionTimestamp
      · rw [if_pos h]
        exact Or.inr rfl
      · rw [if_neg h]
        exact Or.inl rfl

lemma foldl_betterIdx_mem (preds : List RiskPrediction) (is : List ℕ) (a : ℕ) :
    is.foldl (betterIdx preds) a = a ∨ is.foldl (betterIdx preds) a ∈ is := by
  induction is generalizing a with
  | nil => exact Or.inl rfl
  | cons j js ih =>
    rcases ih (betterIdx preds a j) with h | h
    · rcases betterIdx_cases preds a j with hb | hb
      · exact Or.inl (by rw [List.foldl_cons, h, hb])
      · exact Or.inr (by rw [List.foldl_cons, h, hb]; exact List.mem_cons_self j js)
    · exact Or.inr (List.mem_cons_of_mem j h)

lemma mem_matchIdxs_iff (preds : List RiskPrediction) (pid : String) (i : ℕ) :
    i ∈ matchIdxs preds pid ↔
      ∃ p, preds.get? i = some p ∧ p.pseudoPatientId = pid := by
  unfold matchIdxs
  rw [List.mem_filter, List.mem_range]
  constructor
  · rintro ⟨hlt, hp⟩
    rcases hg : preds.get? i with _ | p
    · rw [hg] at hp
      cases hp
    · rw [hg] at hp
      exact ⟨p, rfl, eq_of_beq hp⟩
  · rintro ⟨p, hg, hpid⟩
    rcases List.get?_eq_some.mp hg with ⟨hlt, -⟩
    refine ⟨hlt, ?_⟩
    rw [hg]
    subst hpid
    simp

lemma latestIdx_some (preds : List RiskPrediction) (pid : String) (i : ℕ)
    (h : latestIdx preds pid = some i) :
    ∃ p, preds.get? i = some p ∧ p.pseudoPatientId = pid := by
  unfold latestIdx at h
  rcases hm : matchIdxs preds pid with _ | ⟨j, js⟩
  · rw [hm] at h
    cases h
  · rw [hm] at h
    injection h with h
    have hmem : i ∈ matchIdxs preds pid := by
      rw [hm]
      rcases foldl_betterIdx_mem preds js j with hh | hh
    -- the chosen index is the seed or one of the later candidates
      · rw [← h, hh]
        exact List.mem_cons_self j js
      · rw [← h]
        exact List.mem_cons_of_mem j hh
    exact (mem_matchIdxs_iff preds pid i).mp hmem

lemma latestIdx_none_of (preds : List RiskPrediction) (pid : String)
    (h : ∀ p ∈ preds, p.pseudoPatientId ≠ pid) : latestIdx preds pid = none := by
  unfold latestIdx
  have hnil : matchIdxs preds pid = [] := by
    unfold matchIdxs
    rw [List.filter_eq_nil]
    intro a _
    rcases hg : preds.get? a with _ | p
    · simp
    · intro hbeq
      exact h p (List.get?_mem hg) (eq_of_beq hbeq)
  rw [hnil]

lemma latestIdx_isSome_of (preds : List RiskPrediction) (pid : String)
    (p : RiskPrediction) (hp : p ∈ preds) (hpid : p.pseudoPatientId = pid) :
    ∃ i, latestIdx preds pid = some i := by
  unfold latestIdx
  rcases hm : matchIdxs preds pid with _ | ⟨j, js⟩
  · exfalso
    rcases List.mem_iff_get?.mp hp with ⟨n, hn⟩
    have : n ∈ matchIdxs preds pid :=
      (mem_matchIdxs_iff preds pid n).mpr ⟨p, hn, hpid⟩
    rw [hm] at this
    cases this
  · exact ⟨js.foldl (betterIdx preds) j, rfl⟩

/-- Claim C9: attaching an outcome when the patient has no prediction fails
with a clean `(False, unchanged table)`; when the patient has one, the call
returns `True` and replaces exactly the latest prediction by a copy whose
three outcome fields (outcome boolean, optional outcome date, recorded-at
timestamp) are set, all of its other fields and every other row being
unchanged. -/
theorem update_outcome_spec (now : ℤ) (preds : List RiskPrediction)
    (pid : String) (actual : Bool) (rdate : Option ℤ) :
    ((∀ p ∈ preds, p.pseudoPatientId ≠ pid) →
      updateOutcome now preds pid actual rdate = (false, preds)) ∧
    ((∃ p ∈ preds, p.pseudoPatientId = pid) →
      ∃ i, latestIdx preds pid = some i) ∧
    (∀ i, latestIdx preds pid = some i →
      ∃ p, preds.get? i = some p ∧ p.pseudoPatientId = pid ∧
        updateOutcome now preds pid actual rdate =
          (true, preds.set i (withOutcome p actual rdate now)) ∧
        (withOutcome p actual rdate now).actualReadmission = some actual ∧
        (withOutcome p actual rdate now).actualReadmissionDate = rdate ∧
        (withOutcome p actual rdate now).outcomeRecordedAt = some now ∧
        (withOutcome p actual rdate now).pseudoPatientId = p.pseudoPatientId ∧
        (withOutcome p actual rdate now).encounterId = p.encounterId ∧
        (withOutcome p actual rdate now).modelId = p.modelId ∧
        (withOutcome p actual rdate now).riskScore = p.riskScore ∧
        (withOutcome p actual rdate now).riskLevel = p.riskLevel ∧
        (withOutcome p actual rdate now).confidenceLower = p.confidenceLower ∧
        (withOutcome p actual rdate now).confidenceUpper = p.confidenceUpper ∧
        (withOutcome p actual rdate now).dischargeDate = p.dischargeDate ∧
        (withOutcome p actual rdate now).predictionTimestamp = p.predictionTimestamp ∧
        ∀ j, j ≠ i →
          (preds.set i (withOutcome p actual rdate now)).get? j = preds.get? j) := by
  refine ⟨?_, ?_, ?_⟩
  · intro h
    unfold updateOutcome
    rw [latestIdx_none_of preds pid h]
  · rintro ⟨p, hp, hpid⟩
    exact latestIdx_isSome_of preds pid p hp hpid
  · intro i hi
    rcases latestIdx_some preds pid i hi with ⟨p, hg, hpid⟩
    refine ⟨p, hg, hpid, ?_, rfl, rfl, rfl, rfl, rfl, rfl, rfl, rfl, rfl, rfl,
      rfl, rfl, ?_⟩
    · unfold updateOutcome
      simp only [hi, hg]
    · intro j hj
      exact List.get?_set_ne _ preds (Ne.symm hj)

/-- Witness for C9: on the concrete two-row table, updating an unknown
patient fails cleanly, and updating "pseudo-1" returns `True` and rewrites
exactly row 1 (the later prediction, timestamp 5). -/
theorem update_outcome_witness :
    updateOutcome 100 exPreds "nobody" true none = (false, exPreds) ∧
    updateOutcome 100 exPreds "pseudo-1" true none =
      (true, exPreds.set 1 (withOutcome exPredB true none 100)) := by
  constructor
  · refine (update_outcome_spec 100 exPreds "nobody" true none).1 ?_
    intro p hp
    rcases (by simpa [exPreds] using hp : p = exPredA ∨ p = exPredB) with rfl | rfl <;>
      simp [exPredA, exPredB]
  · rcases (update_outcome_spec 100 exPreds "pseudo-1" true none).2.2 1 rfl with
      ⟨p, hg, -, heq, -⟩
    have hpb : p = exPredB := by
      have hb : exPreds.get? 1 = some exPredB := rfl
      rw [hb] at hg
      injection hg with hg
      exact hg.symm
    rw [hpb] at heq
    exact heq

lemma mem_insertByDesc (p q : RiskPrediction) (l : List RiskPrediction) :
    q ∈ insertByDesc p l ↔ q = p ∨ q ∈ l := by
  induction l with
  | nil => simp [insertByDesc]
  | cons r rs ih =>
    unfold insertByDesc
    by_cases h : predBefore p r = true
    · rw [if_pos h]
      simp [List.mem_cons]
    · rw [if_neg h]
      rw [List.mem_cons, ih, List.mem_cons]
      tauto

lemma mem_sortByDesc (q : RiskPrediction) (l : List RiskPrediction) :
    q ∈ sortByDesc l ↔ q ∈ l := by
  induction l with
  | nil => simp [sortByDesc]
  | cons r rs ih =>
    unfold sortByDesc
    rw [mem_insertByDesc, ih, List.mem_cons]

/-- Claim C10: passing an explicit threshold of 0.0 to the high-risk query
is treated like an absent threshold — the result is the same as with no
threshold, every returned prediction has risk score at least the configured
default 0.7, and a prediction below 0.7 is never returned (so a zero
threshold cannot dump the whole table) — while any strictly positive
threshold `t` filters by `risk_score ≥ t`. -/
theorem high_risk_query_spec (preds : List RiskPrediction) (limit : ℕ) :
    getHighRiskPatients preds (some 0) limit = getHighRiskPatients preds none limit ∧
    (∀ p ∈ getHighRiskPatients preds (some 0) limit,
      riskThresholdHigh ≤ p.riskScore) ∧
    (∀ p ∈ preds, p.riskScore < riskThresholdHigh →
      p ∉ getHighRiskPatients preds (some 0) limit) ∧
    (∀ t : ℚ, 0 < t →
      ∀ p ∈ getHighRiskPatients preds (some t) limit, t ≤ p.riskScore) := by
  have hmem : ∀ (t : ℚ) (p : RiskPrediction),
      p ∈ (sortByDesc (preds.filter (fun r => decide (t ≤ r.riskScore)))).take limit →
      t ≤ p.riskScore := by
    intro t p hp
    have h1 := List.mem_of_mem_take hp
    have h2 := (mem_sortByDesc p _).mp h1
    have h3 := (List.mem_filter.mp h2).2
    exact of_decide_eq_true h3
  have hzero : getHighRiskPatients preds (some 0) limit =
      (sortByDesc (preds.filter (fun r => decide (riskThresholdHigh ≤ r.riskScore)))).take limit := by
    simp [getHighRiskPatients]
  refine ⟨?_, ?_, ?_, ?_⟩
  · rw [hzero]
    rfl
  · intro p hp
    rw [hzero] at hp
    exact hmem riskThresholdHigh p hp
  · intro p _ hlt hp
    rw [hzero] at hp
    exact absurd (hmem riskThresholdHigh p hp) (not_le.mpr hlt)
  · intro t ht p hp
    have hne : ¬(t = 0) := ne_of_gt ht
    simp only [getHighRiskPatients, if_neg hne] at hp
    exact hmem t p hp

/-- Witness for C10: on the concrete two-row table, the query with
threshold 0.0 coincides with the default query, and the 0.3-score
prediction is not returned despite the zero threshold. -/
theorem high_risk_query_witness :
    getHighRiskPatients exPreds (some 0) 100 = getHighRiskPatients exPreds none 100 ∧
    exPredA ∉ getHighRiskPatients exPreds (some 0) 100 := by
  refine ⟨(high_risk_query_spec exPreds 100).1, ?_⟩
  exact (high_risk_query_spec exPreds 100).2.2.1 exPredA (by simp [exPreds])
    (by norm_num [exPredA, riskThresholdHigh])

end HealthFlow
